import Mathlib

/-!
Verification of the OpenAI-to-NVIDIA-NIM proxy (src/server.js).

The streaming transducer (server.js lines 94-139), model-name resolution
(lines 54-62), the non-streaming reshape (lines 140-157) and the error
envelope of the catch block (lines 159-168) are embedded as executable
Lean functions.  JavaScript strings are modelled as `List Char`; JSON
values as the inductive type `JValue`; the platform operations the code
calls (`String.prototype.split`, `String.prototype.includes`,
`JSON.parse`, `JSON.stringify`, `Buffer.prototype.toString`) are
modelled by executable functions with the corresponding semantics.

Modelling notes, stated once here:
* JavaScript `+` as used in the merge logic is modelled as string
  concatenation after `String()` coercion.  In the source every `+`
  in the reasoning/content merge has a string literal on its left or a
  value that at that point is a string, except for the degenerate case
  of a delta whose `reasoning_content`/`content` are both non-string
  JSON values (never produced by the upstream protocol); for those the
  model concatenates their string coercions.
* `model.toLowerCase()` is modelled with `Char.toLower` (exact on the
  ASCII model names involved).
* `MODEL_MAPPING[k]` is modelled with the prototype chain: a miss on
  the literal's own entries falls through to the inherited members of
  `Object.prototype`, which are truthy non-strings, so that reading
  e.g. `toString` or `constructor` behaves as the program does.
* JSON numbers keep their source lexeme; none of the verified claims
  depends on numeric values.
-/

/-- JavaScript strings are modelled as lists of characters. -/
abbrev Str := List Char

/-- JavaScript `String.prototype.includes`: substring containment. -/
def containsSeq (needle : Str) : Str → Bool
  | [] => needle.isEmpty
  | c :: rest => needle.isPrefixOf (c :: rest) || containsSeq needle rest

/-- JavaScript `str.split('\n')` (single-character separator). -/
def splitNl : Str → List Str
  | [] => [[]]
  | c :: rest =>
    if c = '\n' then [] :: splitNl rest
    else
      match splitNl rest with
      | [] => [[c]]
      | g :: gs => (c :: g) :: gs

/-- All elements of the split except the last: the complete lines left
after `lines.pop()` in server.js line 100. -/
def initGrps : List Str → List Str
  | [] => []
  | [_] => []
  | g :: gs => g :: initGrps gs

/-- The last element of the split: the incomplete fragment returned by
`lines.pop()` in server.js line 100 (`.. or ''` is the same value). -/
def lastGrp : List Str → Str
  | [] => []
  | [g] => g
  | _ :: gs => lastGrp gs

/-- JSON values as produced by `JSON.parse`.  Numbers keep their source
lexeme. -/
inductive JValue where
  | null : JValue
  | bool : Bool → JValue
  | num : Str → JValue
  | str : Str → JValue
  | arr : List JValue → JValue
  | obj : List (Str × JValue) → JValue

/-- Own-property read on an object's entry list. -/
def objGet (kvs : List (Str × JValue)) (k : Str) : Option JValue :=
  match kvs with
  | [] => none
  | (k', v) :: rest => if k' = k then some v else objGet rest k

/-- JavaScript property assignment: overwrite in place, else append. -/
def objSet (kvs : List (Str × JValue)) (k : Str) (v : JValue) :
    List (Str × JValue) :=
  match kvs with
  | [] => [(k, v)]
  | (k', v') :: rest =>
    if k' = k then (k, v) :: rest else (k', v') :: objSet rest k v

/-- JavaScript `delete obj.k`. -/
def objDel (kvs : List (Str × JValue)) (k : Str) : List (Str × JValue) :=
  match kvs with
  | [] => []
  | (k', v') :: rest =>
    if k' = k then objDel rest k else (k', v') :: objDel rest k

/-- JavaScript property access `v.k`; `none` models `undefined`. -/
def getField : JValue → Str → Option JValue
  | .obj kvs, k => objGet kvs k
  | _, _ => none

/-- Whether a JSON number lexeme denotes zero (the only falsy number a
JSON parse can produce). -/
def numIsZero (lit : Str) : Bool :=
  let s := match lit with
    | '-' :: r => r
    | _ => lit
  (s.takeWhile (fun c => !(c == 'e') && !(c == 'E'))).all
    (fun c => c == '0' || c == '.')

/-- JavaScript truthiness of a JSON value. -/
def truthy : JValue → Bool
  | .null => false
  | .bool b => b
  | .num lit => !numIsZero lit
  | .str s => !s.isEmpty
  | .arr _ => true
  | .obj _ => true

/-- Truthiness of a possibly-undefined value. -/
def truthyO : Option JValue → Bool
  | some v => truthy v
  | none => false

mutual
/-- JavaScript `String(v)` coercion of a JSON value. -/
def jsToStr : JValue → Str
  | .null => ("null").data
  | .bool true => ("true").data
  | .bool false => ("false").data
  | .num lit => lit
  | .str s => s
  | .arr xs => joinElems xs
  | .obj _ => ("[object Object]").data

/-- `Array.prototype.toString`, i.e. `join(',')` with `null` elements
rendered empty. -/
def joinElems : List JValue → Str
  | [] => []
  | x :: xs =>
    let sx := match x with
      | .null => []
      | v => jsToStr v
    match xs with
    | [] => sx
    | _ :: _ => sx ++ ',' :: joinElems xs
end

/-- Lower hex digit. -/
def hexDigit (n : Nat) : Char :=
  if n < 10 then Char.ofNat (48 + n) else Char.ofNat (87 + n)

/-- `JSON.stringify` escaping of one string character. -/
def escChar (c : Char) : Str :=
  if c = '"' then ['\\', '"']
  else if c = '\\' then ['\\', '\\']
  else if c = '\n' then ['\\', 'n']
  else if c = '\r' then ['\\', 'r']
  else if c = '\t' then ['\\', 't']
  else if c = Char.ofNat 8 then ['\\', 'b']
  else if c = Char.ofNat 12 then ['\\', 'f']
  else if c.toNat < 32 then
    ['\\', 'u', '0', '0', hexDigit (c.toNat / 16), hexDigit (c.toNat % 16)]
  else [c]

/-- Body of an escaped string, including the closing quote. -/
def escBody : Str → Str
  | [] => ['"']
  | c :: r => escChar c ++ escBody r

/-- `JSON.stringify` of a string value, quotes included. -/
def escString (s : Str) : Str := '"' :: escBody s

mutual
/-- JavaScript `JSON.stringify` (no spacing argument). -/
def stringify : JValue → Str
  | .null => ("null").data
  | .bool true => ("true").data
  | .bool false => ("false").data
  | .num lit => lit
  | .str s => escString s
  | .arr xs => '[' :: strElems xs ++ [']']
  | .obj kvs => Char.ofNat 123 :: strFields kvs ++ [Char.ofNat 125]

/-- Comma-separated serialization of array elements. -/
def strElems : List JValue → Str
  | [] => []
  | x :: xs =>
    match xs with
    | [] => stringify x
    | _ :: _ => stringify x ++ ',' :: strElems xs

/-- Comma-separated serialization of object members. -/
def strFields : List (Str × JValue) → Str
  | [] => []
  | (k, v) :: rest =>
    match rest with
    | [] => escString k ++ ':' :: stringify v
    | _ :: _ => escString k ++ ':' :: stringify v ++ ',' :: strFields rest
end

/-- JSON whitespace test. -/
def isWsChar (c : Char) : Bool :=
  c == ' ' || c == '\t' || c == '\n' || c == '\r'

/-- Drop leading JSON whitespace. -/
def skipWs : Str → Str
  | [] => []
  | c :: r => if isWsChar c then skipWs r else c :: r

/-- Value of one hex digit, if any. -/
def hexVal (c : Char) : Option Nat :=
  if 48 ≤ c.toNat ∧ c.toNat ≤ 57 then some (c.toNat - 48)
  else if 97 ≤ c.toNat ∧ c.toNat ≤ 102 then some (c.toNat - 87)
  else if 65 ≤ c.toNat ∧ c.toNat ≤ 70 then some (c.toNat - 55)
  else none

/-- Decoding of a single-character JSON escape. -/
def escDecode (e : Char) : Option Char :=
  if e = '"' || e = '\\' || e = '/' then some e
  else if e = 'n' then some '\n'
  else if e = 't' then some '\t'
  else if e = 'r' then some '\r'
  else if e = 'b' then some (Char.ofNat 8)
  else if e = 'f' then some (Char.ofNat 12)
  else none

/-- Parse the body of a JSON string after the opening quote. -/
def parseStrF : Nat → Str → Option (Str × Str)
  | 0, _ => none
  | fuel + 1, s =>
    match s with
    | [] => none
    | c :: r =>
      if c = '"' then some ([], r)
      else if c = '\\' then
        match r with
        | [] => none
        | e :: r2 =>
          if e = 'u' then
            match r2 with
            | h1 :: h2 :: h3 :: h4 :: r3 =>
              match hexVal h1, hexVal h2, hexVal h3, hexVal h4 with
              | some a, some b, some c4, some d =>
                match parseStrF fuel r3 with
                | some (cs, rest) =>
                  some (Char.ofNat (a * 4096 + b * 256 + c4 * 16 + d) :: cs, rest)
                | none => none
              | _, _, _, _ => none
            | _ => none
          else
            match escDecode e with
            | some dch =>
              match parseStrF fuel r2 with
              | some (cs, rest) => some (dch :: cs, rest)
              | none => none
            | none => none
      else if c.toNat < 32 then none
      else
        match parseStrF fuel r with
        | some (cs, rest) => some (c :: cs, rest)
        | none => none

/-- Entry point for string bodies, with adequate fuel. -/
def parseStrTop (s : Str) : Option (Str × Str) := parseStrF (s.length + 1) s

/-- Optional fraction part of a JSON number. -/
def parseFrac (s : Str) : Option (Str × Str) :=
  match s with
  | '.' :: r =>
    let ds := r.takeWhile Char.isDigit
    if ds.isEmpty then none else some ('.' :: ds, r.dropWhile Char.isDigit)
  | _ => some ([], s)

/-- Optional exponent part of a JSON number. -/
def parseExp (s : Str) : Option (Str × Str) :=
  match s with
  | [] => some ([], [])
  | c :: r =>
    if c = 'e' || c = 'E' then
      let sg : Str := match r with
        | '+' :: _ => ['+']
        | '-' :: _ => ['-']
        | _ => []
      let r2 := match r with
        | '+' :: rr => rr
        | '-' :: rr => rr
        | _ => r
      let ds := r2.takeWhile Char.isDigit
      if ds.isEmpty then none
      else some (c :: sg ++ ds, r2.dropWhile Char.isDigit)
    else some ([], c :: r)

/-- Fraction and exponent after the integer part of a number. -/
def numRest (sgn ip : Str) (s : Str) : Option (Str × Str) :=
  match parseFrac s with
  | none => none
  | some (fp, s2) =>
    match parseExp s2 with
    | none => none
    | some (ep, s3) => some (sgn ++ ip ++ fp ++ ep, s3)

/-- JSON number grammar; returns the lexeme and the rest. -/
def parseNum (s : Str) : Option (Str × Str) :=
  let sgn : Str := match s with
    | '-' :: _ => ['-']
    | _ => []
  let s1 := match s with
    | '-' :: r => r
    | _ => s
  match s1 with
  | [] => none
  | c :: r =>
    if c = '0' then
      match r with
      | d :: _ => if d.isDigit then none else numRest sgn ['0'] r
      | [] => numRest sgn ['0'] []
    else if c.isDigit then
      numRest sgn ((c :: r).takeWhile Char.isDigit)
        ((c :: r).dropWhile Char.isDigit)
    else none

/-- Object construction from parsed members: successive property
assignment, so a duplicated key keeps its first position with the last
value, as in JavaScript. -/
def buildObj (fs : List (Str × JValue)) : List (Str × JValue) :=
  fs.foldl (fun acc p => objSet acc p.1 p.2) []

mutual
/-- Recursive-descent `JSON.parse`, fuel-indexed. -/
def parseVal : Nat → Str → Option (JValue × Str)
  | 0, _ => none
  | fuel + 1, s0 =>
    match skipWs s0 with
    | [] => none
    | c :: r =>
      if c = 'n' then
        match r with
        | 'u' :: 'l' :: 'l' :: rest => some (.null, rest)
        | _ => none
      else if c = 't' then
        match r with
        | 'r' :: 'u' :: 'e' :: rest => some (.bool true, rest)
        | _ => none
      else if c = 'f' then
        match r with
        | 'a' :: 'l' :: 's' :: 'e' :: rest => some (.bool false, rest)
        | _ => none
      else if c = '"' then
        match parseStrTop r with
        | some (cs, rest) => some (.str cs, rest)
        | none => none
      else if c = '[' then
        match skipWs r with
        | ']' :: rest => some (.arr [], rest)
        | r2 =>
          match parseElems fuel r2 with
          | some (xs, rest) => some (.arr xs, rest)
          | none => none
      else if c = Char.ofNat 123 then
        match skipWs r with
        | [] => none
        | c2 :: r2 =>
          if c2 = Char.ofNat 125 then some (.obj [], r2)
          else
            match parseMembers fuel (c2 :: r2) with
            | some (fs, rest) => some (.obj (buildObj fs), rest)
            | none => none
      else
        match parseNum (c :: r) with
        | some (lit, rest) => some (.num lit, rest)
        | none => none

/-- One-or-more array elements up to the closing bracket. -/
def parseElems : Nat → Str → Option (List JValue × Str)
  | 0, _ => none
  | fuel + 1, s =>
    match parseVal fuel s with
    | none => none
    | some (v, r) =>
      match skipWs r with
      | [] => none
      | c :: r2 =>
        if c = ',' then
          match parseElems fuel r2 with
          | some (vs, rest) => some (v :: vs, rest)
          | none => none
        else if c = ']' then some ([v], r2)
        else none

/-- One-or-more object members up to the closing brace. -/
def parseMembers : Nat → Str → Option (List (Str × JValue) × Str)
  | 0, _ => none
  | fuel + 1, s =>
    match skipWs s with
    | '"' :: r =>
      match parseStrTop r with
      | none => none
      | some (k, r1) =>
        match skipWs r1 with
        | ':' :: r2 =>
          match parseVal fuel r2 with
          | none => none
          | some (v, r3) =>
            match skipWs r3 with
            | [] => none
            | c :: r4 =>
              if c = ',' then
                match parseMembers fuel r4 with
                | some (fs, rest) => some ((k, v) :: fs, rest)
                | none => none
              else if c = Char.ofNat 125 then some ([(k, v)], r4)
              else none
        | _ => none
    | _ => none
end

/-- JavaScript `JSON.parse`; `none` models a thrown SyntaxError. -/
def jsonParse (s : Str) : Option JValue :=
  match parseVal (2 * s.length + 4) s with
  | some (v, rest) => if (skipWs rest).isEmpty then some v else none
  | none => none

/-- Key `reasoning_content`. -/
def rcKey : Str := ("reasoning_content").data

/-- Key `content`. -/
def cKey : Str := ("content").data

/-- Key `choices`. -/
def choicesKey : Str := ("choices").data

/-- Key `delta`. -/
def deltaKey : Str := ("delta").data

/-- Array-index key `0` for the object case of `?.[0]`. -/
def zeroKey : Str := ("0").data

/-- The event-payload marker `data: ` (server.js line 103). -/
def dataMarker : Str := ("data: ").data

/-- The terminal sentinel token (server.js line 104). -/
def doneTok : Str := ("[DONE]").data

/-- The opening reasoning marker emitted by the stream path
(server.js line 115). -/
def thinkOpen : Str := ("<think>\n").data

/-- The closing reasoning marker emitted by the stream path
(server.js line 120). -/
def thinkClose : Str := ("</think>\n\n").data

/-- The SHOW_REASONING merge logic, server.js lines 111-122: given the
state flag and the two delta fields, the `combined` value and the new
flag. -/
def mergeStep (rs : Bool) (reasoning content : Option JValue) :
    JValue × Bool :=
  let st0 : JValue × Bool :=
    if truthyO reasoning then
      if !rs then (.str (thinkOpen ++ jsToStr (reasoning.getD .null)), true)
      else (reasoning.getD .null, rs)
    else (.str [], rs)
  if truthyO content then
    if st0.2 then
      (.str (jsToStr st0.1 ++ thinkClose ++ jsToStr (content.getD .null)),
       false)
    else (.str (jsToStr st0.1 ++ jsToStr (content.getD .null)), st0.2)
  else st0

/-- JavaScript property assignment on a value (silent no-op off
objects, as in sloppy mode; unreachable off objects here). -/
def setField : JValue → Str → JValue → JValue
  | .obj kvs, k, v => .obj (objSet kvs k v)
  | w, _, _ => w

/-- JavaScript `delete v.k`. -/
def delField : JValue → Str → JValue
  | .obj kvs, k => .obj (objDel kvs k)
  | w, _ => w

/-- The delta rewrite, server.js lines 108-131 (SHOW_REASONING = true):
`delta.content = combined; delete delta.reasoning_content` guarded by
`if (combined)`. -/
def handleDelta (rs : Bool) (delta : JValue) : JValue × Bool :=
  let m := mergeStep rs (getField delta rcKey) (getField delta cKey)
  if truthy m.1 then (delField (setField delta cKey m.1) rcKey, m.2)
  else (delta, m.2)

/-- JavaScript `x?.[0]`. -/
def index0 : JValue → Option JValue
  | .arr (x :: _) => some x
  | .arr [] => none
  | .obj kvs => objGet kvs zeroKey
  | .str (c :: _) => some (.str [c])
  | _ => none

/-- `data.choices?.[0]?.delta` together with the truthiness test of
server.js line 107. -/
def getDelta (data : JValue) : Option JValue :=
  match getField data choicesKey with
  | none => none
  | some chs =>
    match index0 chs with
    | none => none
    | some c0 =>
      match getField c0 deltaKey with
      | none => none
      | some d => if truthy d then some d else none

/-- Write the (possibly mutated) delta back along `choices[0].delta`;
models the in-place mutation of the aliased delta object. -/
def setDelta (data : JValue) (d : JValue) : JValue :=
  match data with
  | .obj kvs =>
    match objGet kvs choicesKey with
    | some (.arr (c0 :: cs)) =>
      .obj (objSet kvs choicesKey (.arr (setField c0 deltaKey d :: cs)))
    | some (.obj ckvs) =>
      match objGet ckvs zeroKey with
      | some c0 =>
        .obj (objSet kvs choicesKey
          (.obj (objSet ckvs zeroKey (setField c0 deltaKey d))))
      | none => data
    | _ => data
  | _ => data

/-- Per-line transduction, server.js lines 102-135: the state flag and
the list of strings written to the client for this line. -/
def processLine (rs : Bool) (line : Str) : Bool × List Str :=
  if dataMarker.isPrefixOf line then
    if containsSeq doneTok line then (rs, [line ++ ['\n']])
    else
      match jsonParse (line.drop 6) with
      | none => (rs, [line ++ ['\n']])
      | some data =>
        match getDelta data with
        | none => (rs, [dataMarker ++ stringify data ++ ['\n', '\n']])
        | some delta =>
          let h := handleDelta rs delta
          (h.2, [dataMarker ++ stringify (setDelta data h.1) ++ ['\n', '\n']])
  else (rs, [])

/-- `lines.forEach(...)`: fold of `processLine` with accumulated
output. -/
def processLines (rs : Bool) : List Str → Bool × List Str
  | [] => (rs, [])
  | l :: ls =>
    let h := processLine rs l
    let t := processLines h.1 ls
    (t.1, h.2 ++ t.2)

/-- Per-request mutable state of the data handler: the line buffer and
the `reasoningStarted` flag (server.js lines 94-95). -/
structure TState where
  buffer : Str
  reasoningStarted : Bool

/-- The `response.data.on('data')` handler, server.js lines 97-137, for
one decoded chunk. -/
def processChunk (st : TState) (chunk : Str) : TState × List Str :=
  let parts := splitNl (st.buffer ++ chunk)
  let t := processLines st.reasoningStarted (initGrps parts)
  (⟨lastGrp parts, t.1⟩, t.2)

/-- Repeated application of the data handler over a chunk sequence. -/
def runChunks (st : TState) : List Str → TState × List Str
  | [] => (st, [])
  | c :: cs =>
    let h := processChunk st c
    let t := runChunks h.1 cs
    (t.1, h.2 ++ t.2)

/-- Initial per-request state (server.js lines 94-95). -/
def initState : TState := ⟨[], false⟩

/-- The `response.data.on('end')` handler, server.js line 138: it only
calls `res.end()` and writes nothing, in any state. -/
def onEnd (_st : TState) : List Str := []

/-- Everything written to the client over a whole stream, end-of-stream
handling included. -/
def fullRun (chunks : List Str) : List Str :=
  (runChunks initState chunks).2 ++ onEnd (runChunks initState chunks).1

/-- Incremental UTF-8 decoder state (WHATWG decoder with replacement,
the semantics of `Buffer.prototype.toString('utf8')`). -/
structure Utf8St where
  codep : Nat
  need : Nat
  lo : Nat
  hi : Nat

/-- Ground decoder state. -/
def utf8Init : Utf8St := ⟨0, 0, 128, 191⟩

/-- U+FFFD. -/
def replChar : Char := Char.ofNat 65533

/-- Handle one byte in ground state. -/
def utf8Lead (b : Nat) : Utf8St × List Char :=
  if b ≤ 127 then (utf8Init, [Char.ofNat b])
  else if 194 ≤ b ∧ b ≤ 223 then (⟨b - 192, 1, 128, 191⟩, [])
  else if b = 224 then (⟨0, 2, 160, 191⟩, [])
  else if 225 ≤ b ∧ b ≤ 236 then (⟨b - 224, 2, 128, 191⟩, [])
  else if b = 237 then (⟨13, 2, 128, 159⟩, [])
  else if 238 ≤ b ∧ b ≤ 239 then (⟨b - 224, 2, 128, 191⟩, [])
  else if b = 240 then (⟨0, 3, 144, 191⟩, [])
  else if 241 ≤ b ∧ b ≤ 243 then (⟨b - 240, 3, 128, 191⟩, [])
  else if b = 244 then (⟨4, 3, 128, 143⟩, [])
  else (utf8Init, [replChar])

/-- Handle one byte in any state. -/
def utf8Step (st : Utf8St) (b : Nat) : Utf8St × List Char :=
  if st.need = 0 then utf8Lead b
  else if st.lo ≤ b ∧ b ≤ st.hi then
    let cp := st.codep * 64 + (b - 128)
    if st.need = 1 then (utf8Init, [Char.ofNat cp])
    else (⟨cp, st.need - 1, 128, 191⟩, [])
  else
    let l := utf8Lead b
    (l.1, replChar :: l.2)

/-- Run the decoder over a byte list, flushing a truncated trailing
sequence as one replacement character. -/
def utf8Run (st : Utf8St) : List Nat → List Char
  | [] => if st.need = 0 then [] else [replChar]
  | b :: bs =>
    let r := utf8Step st b
    r.2 ++ utf8Run r.1 bs

/-- Node `chunk.toString()`: each chunk is decoded independently. -/
def utf8Decode (bs : List Nat) : List Char := utf8Run utf8Init bs

/-- The data handler at byte level: server.js line 98 decodes every
arriving chunk on its own with `chunk.toString()` before buffering. -/
def runChunksBytes (st : TState) (chunks : List (List Nat)) :
    TState × List Str :=
  runChunks st (chunks.map utf8Decode)

/-- The static MODEL_MAPPING table, server.js lines 24-37. -/
def MODEL_MAPPING : List (Str × Str) :=
  [(("3.2 deepseek").data, ("deepseek-ai/deepseek-v3.2").data),
   (("deepseek 3.2").data, ("deepseek-ai/deepseek-v3.2").data),
   (("deepseek").data, ("deepseek-ai/deepseek-v3.2").data),
   (("gpt-4").data, ("deepseek-ai/deepseek-v3.2").data),
   (("gpt-4-turbo").data, ("moonshotai/kimi-k2-thinking").data),
   (("gpt-4o").data, ("deepseek-ai/deepseek-v3.1-terminus").data),
   (("claude-3-opus").data, ("deepseek-ai/deepseek-r1").data),
   (("claude-3-sonnet").data, ("openai/gpt-oss-20b").data),
   (("deepseek-ai/deepseek-v3.1-terminus").data,
    ("qwen/qwen3-next-80b-a3b-thinking").data)]

/-- Association lookup among the literal's own entries (one layer of
the bracket read). -/
def assocLookup (m : List (Str × Str)) (k : Str) : Option Str :=
  match m with
  | [] => none
  | (k', v) :: rest => if k' = k then some v else assocLookup rest k

/-- The property names a JavaScript object literal inherits from
`Object.prototype`. -/
def objectProtoProps : List Str :=
  [("constructor").data, ("hasOwnProperty").data, ("isPrototypeOf").data,
   ("propertyIsEnumerable").data, ("toLocaleString").data,
   ("toString").data, ("valueOf").data, ("__defineGetter__").data,
   ("__defineSetter__").data, ("__lookupGetter__").data,
   ("__lookupSetter__").data, ("__proto__").data]

/-- A defined result of the bracket read `MODEL_MAPPING[k]`: an own
entry (a string of the table), or an inherited member of
`Object.prototype` (a function, or the prototype object itself for
`__proto__`: truthy and not a string). -/
inductive JsRead where
  | strVal : Str → JsRead
  | protoMember : JsRead
deriving DecidableEq

/-- `MODEL_MAPPING[k]`: the own entries first, then the prototype
chain; `none` models `undefined`. -/
def readMapping (k : Str) : Option JsRead :=
  match assocLookup MODEL_MAPPING k with
  | some v => some (.strVal v)
  | none => if k ∈ objectProtoProps then some .protoMember else none

/-- Truthiness of a bracket-read result: table entries are non-empty
strings, inherited members are functions or objects. -/
def truthyRead : Option JsRead → Bool
  | some (.strVal s) => !s.isEmpty
  | some .protoMember => true
  | none => false

/-- JavaScript `x .. or .. y` on a possibly-undefined read and a
fallback: the first truthy operand, else the fallback. -/
def orRead : Option JsRead → JsRead → JsRead
  | some v, w => if truthyRead (some v) then v else w
  | none, w => w

/-- JavaScript `String.prototype.toLowerCase`, character-wise.  The
ASCII range is mapped exactly, together with U+212A (KELVIN SIGN), the
one code point outside ASCII whose Unicode lowercase is an ASCII
letter; every other character is kept unchanged.  Unicode mappings
between non-ASCII characters (and the sole length-changing default
mapping, of U+0130) are not applied: no such character can move a name
into or out of the all-ASCII mapping keys, prototype names, or the
"deepseek" and "/" tests, and the resolution theorem additionally
restricts itself to ASCII names, on which the model is exact. -/
def jsLowerChar (c : Char) : Char :=
  if 65 ≤ c.toNat ∧ c.toNat ≤ 90 then Char.ofNat (c.toNat + 32)
  else if c.toNat = 8490 then 'k'
  else c

/-- `model.toLowerCase()`. -/
def toLowerStr (s : Str) : Str := s.map jsLowerChar

/-- Outcome of model resolution: a string identifier; a non-string
value passed through into the upstream request body (a name such as
"constructor" whose lowercased form reads an inherited member, so the
fallback guard is skipped); or a TypeError thrown by
`nimModel.includes('/')` when `nimModel` is an inherited function (the
surrounding catch block then answers 500). -/
inductive Resolved where
  | ok : Str → Resolved
  | nonString : Resolved
  | typeError : Resolved
deriving DecidableEq

/-- Model resolution, server.js lines 54-62, prototype chain
included. -/
def resolveModel (model : Str) : Resolved :=
  let modelKey := toLowerStr model
  let r1 := readMapping modelKey
  let nimModel := orRead r1 (orRead (readMapping model) (.strVal model))
  if !truthyRead r1 then
    match nimModel with
    | .protoMember => .typeError
    | .strVal s =>
      if !containsSeq ['/'] s then
        if containsSeq (("deepseek").data) modelKey then
          .ok (("deepseek-ai/deepseek-v3.2").data)
        else .ok (("meta/llama-3.1-405b-instruct").data)
      else .ok s
  else
    match nimModel with
    | .strVal s => .ok s
    | .protoMember => .nonString

/-- The upstream error body as axios hands it to the catch block: the
parsed JSON body when the request used `responseType: 'json'`, an
opaque (never drained) stream object when it used
`responseType: 'stream'`. -/
inductive UpData where
  | jsonBody : JValue → UpData
  | streamBody : Str → UpData

/-- Key `error`. -/
def errKey : Str := ("error").data

/-- Key `message`. -/
def msgKey : Str := ("message").data

/-- `error.response?.data?.error?.message`: a stream object has no
`error` property, so the streaming case is always `undefined`. -/
def upDataErrMsg : UpData → Option JValue
  | .jsonBody v =>
    match getField v errKey with
    | some e => getField e msgKey
    | none => none
  | .streamBody _ => none

/-- JavaScript `n .. or .. d` on numbers (0 is falsy). -/
def jsOrNat (n d : Nat) : Nat := if n = 0 then d else n

/-- The catch block, server.js lines 159-168: the HTTP status and the
JSON error envelope sent to the client.  `response` is
`error.response` (none for a connection-level failure), `errMessage`
is `error.message`. -/
def catchEnvelope (response : Option (Nat × UpData)) (errMessage : Str) :
    Nat × JValue :=
  let status :=
    match response with
    | some p => jsOrNat p.1 500
    | none => 500
  let msgVal : JValue :=
    match response with
    | some p =>
      match upDataErrMsg p.2 with
      | some m => if truthy m then m else .str errMessage
      | none => .str errMessage
    | none => .str errMessage
  (status,
   .obj [(errKey,
     .obj [(msgKey, msgVal),
           (("type").data, .str (("invalid_request_error").data)),
           (("code").data, .num (Nat.repr status).data)])])

/-- Extraction `env.error.message` from a client-facing envelope. -/
def envMessage (env : JValue) : Option JValue :=
  match getField env errKey with
  | some e => getField e msgKey
  | none => none

/-- Non-streaming content assembly, server.js lines 143-146
(SHOW_REASONING = true). -/
def nonStreamContent (choice : JValue) : JValue :=
  let msg := getField choice msgKey
  let content : JValue :=
    match msg with
    | some m =>
      match getField m cKey with
      | some v => if truthy v then v else .str []
      | none => .str []
    | none => .str []
  match msg with
  | some m =>
    match getField m rcKey with
    | some rc =>
      if truthy rc then
        .str (thinkOpen ++ jsToStr rc ++ ("\n</think>\n\n").data
          ++ jsToStr content)
      else content
    | none => content
  | none => content

/-- The rebuilt outbound message object, server.js line 154. -/
def reshapeMessage (choice : JValue) : JValue :=
  .obj [(("role").data, .str (("assistant").data)),
        (cKey, nonStreamContent choice)]

/-- Opening and closing reasoning markers contributed by one line of
the stream: an opening marker is emitted exactly when a truthy
reasoning fragment arrives in Answering state, a closing marker
exactly when a truthy answer fragment arrives with the reasoning flag
set at that point (server.js lines 111-122). -/
def lineMarkers (rs : Bool) (line : Str) : Nat × Nat :=
  if dataMarker.isPrefixOf line then
    if containsSeq doneTok line then (0, 0)
    else
      match jsonParse (line.drop 6) with
      | none => (0, 0)
      | some data =>
        match getDelta data with
        | none => (0, 0)
        | some delta =>
          let reasoning := getField delta rcKey
          let content := getField delta cKey
          ((if truthyO reasoning && !rs then 1 else 0),
           (if truthyO content && (truthyO reasoning || rs) then 1 else 0))
  else (0, 0)

/-- Markers contributed by a line sequence, threading the state the way
`processLines` does. -/
def linesMarkers (rs : Bool) : List Str → Nat × Nat
  | [] => (0, 0)
  | l :: ls =>
    let m := lineMarkers rs l
    let t := linesMarkers (processLine rs l).1 ls
    (m.1 + t.1, m.2 + t.2)

/-- Markers contributed over a whole chunked run. -/
def runMarkers (st : TState) : List Str → Nat × Nat
  | [] => (0, 0)
  | ch :: chs =>
    let m := linesMarkers st.reasoningStarted (initGrps (splitNl (st.buffer ++ ch)))
    let t := runMarkers (processChunk st ch).1 chs
    (m.1 + t.1, m.2 + t.2)

/-- Prepend a pending fragment onto the first group of a split. -/
def glue (x : Str) : List Str → List Str
  | [] => [x]
  | g :: gs => (x ++ g) :: gs

/-- A single reasoning event followed by end of stream. -/
def c1chunk : Str :=
  ("data: \x7b\"choices\":[\x7b\"delta\":\x7b\"reasoning_content\":\"x\"\x7d\x7d]\x7d\n").data

/-- Byte form of one complete event line whose content is the two-byte
UTF-8 character U+00E9. -/
def c2bytes : List Nat :=
  (("data: \x7b\"choices\":[\x7b\"delta\":\x7b\"content\":\"").data.map Char.toNat)
    ++ [195, 169] ++ (("\"\x7d\x7d]\x7d\n").data.map Char.toNat)

/-- A delta carrying both fragments. -/
def c3delta : List (Str × JValue) :=
  [(rcKey, JValue.str (("why").data)), (cKey, JValue.str (("ans").data))]

/-- An event line whose delta has `reasoning_content` present but equal
to the empty string, and no `content`. -/
def c4line : Str :=
  ("data: \x7b\"choices\":[\x7b\"delta\":\x7b\"reasoning_content\":\"\"\x7d\x7d]\x7d").data

/-- An upstream 404 JSON error body, as raw stream text. -/
def c6raw : Str :=
  ("\x7b\"error\":\x7b\"message\":\"Model xyz not found\"\x7d\x7d").data

/-- The axios transport error text for a 404. -/
def c6ax : Str := ("Request failed with status code 404").data

/-- A parsed upstream 404 JSON error body. -/
def c6body : JValue :=
  JValue.obj [(errKey, JValue.obj
    [(msgKey, JValue.str (("Model abc missing").data))])]

/-- A non-streaming first choice message carrying both fields. -/
def c7msg : JValue :=
  JValue.obj [(cKey, JValue.str (("42").data)),
              (rcKey, JValue.str (("because").data))]

/-- A non-streaming first choice carrying both fields. -/
def c7choice : JValue := JValue.obj [(msgKey, c7msg)]

/-- A complete non-blank line without the event-payload marker. -/
def c8line : Str := (": keep-alive").data

/-- A well-formed reasoning event line. -/
def c9good1 : Str :=
  ("data: \x7b\"choices\":[\x7b\"delta\":\x7b\"reasoning_content\":\"a\"\x7d\x7d]\x7d").data

/-- A marked line whose payload is not valid JSON. -/
def c9bad : Str := ("data: \x7b\"choices\":").data

/-- A well-formed answer event line. -/
def c9good2 : Str :=
  ("data: \x7b\"choices\":[\x7b\"delta\":\x7b\"content\":\"b\"\x7d\x7d]\x7d").data

/-- A well-formed event line whose content text contains the sentinel
token. -/
def c10line : Str :=
  ("data: \x7b\"choices\":[\x7b\"delta\":\x7b\"content\":\"x [DONE] y\"\x7d\x7d]\x7d").data

theorem objGet_objSet_self (kvs : List (Str × JValue)) (k : Str) (v : JValue) :
    objGet (objSet kvs k v) k = some v := by
  induction kvs with
  | nil => simp [objSet, objGet]
  | cons p rest ih =>
    obtain ⟨k', v'⟩ := p
    by_cases h : k' = k
    · simp [objSet, objGet, h]
    · simp [objSet, objGet, h, ih]

theorem objGet_objDel_self (kvs : List (Str × JValue)) (k : Str) :
    objGet (objDel kvs k) k = none := by
  induction kvs with
  | nil => simp [objDel, objGet]
  | cons p rest ih =>
    obtain ⟨k', v'⟩ := p
    by_cases h : k' = k
    · simp [objDel, h, ih]
    · simp [objDel, objGet, h, ih]

theorem objGet_objDel_ne (kvs : List (Str × JValue)) (k k2 : Str)
    (h : k2 ≠ k) : objGet (objDel kvs k) k2 = objGet kvs k2 := by
  have hks : k ≠ k2 := Ne.symm h
  induction kvs with
  | nil => simp [objDel]
  | cons p rest ih =>
    obtain ⟨k', v'⟩ := p
    by_cases hk : k' = k
    · simp [objDel, objGet, hk, hks, ih]
    · by_cases hk2 : k' = k2
      · simp [objDel, objGet, hk, hk2, h]
      · simp [objDel, objGet, hk, hk2, ih]

theorem objGet_objSet_ne (kvs : List (Str × JValue)) (k k2 : Str)
    (v : JValue) (h : k2 ≠ k) :
    objGet (objSet kvs k v) k2 = objGet kvs k2 := by
  have hks : k ≠ k2 := Ne.symm h
  induction kvs with
  | nil => simp [objSet, objGet, hks]
  | cons p rest ih =>
    obtain ⟨k', v'⟩ := p
    by_cases hk : k' = k
    · simp [objSet, objGet, hk, hks]
    · by_cases hk2 : k' = k2
      · simp [objSet, objGet, hk, hk2, h]
      · simp [objSet, objGet, hk, hk2, ih]

theorem mergeStep_snd (rs : Bool) (re co : Option JValue) :
    (mergeStep rs re co).2 =
      if truthyO co then false else (truthyO re || rs) := by
  unfold mergeStep
  cases hre : truthyO re <;> cases hco : truthyO co <;> cases rs <;>
    simp [hre, hco]

theorem handleDelta_snd (rs : Bool) (d : JValue) :
    (handleDelta rs d).2 =
      (mergeStep rs (getField d rcKey) (getField d cKey)).2 := by
  unfold handleDelta
  dsimp only
  split <;> rfl

theorem processLine_not_marked (rs : Bool) (line : Str)
    (h : dataMarker.isPrefixOf line = false) :
    processLine rs line = (rs, []) := by
  simp [processLine, h]

theorem processLine_done (rs : Bool) (line : Str)
    (hp : dataMarker.isPrefixOf line = true)
    (hd : containsSeq doneTok line = true) :
    processLine rs line = (rs, [line ++ ['\n']]) := by
  simp [processLine, hp, hd]

theorem processLine_bad_json (rs : Bool) (line : Str)
    (hp : dataMarker.isPrefixOf line = true)
    (hd : containsSeq doneTok line = false)
    (hj : jsonParse (line.drop 6) = none) :
    processLine rs line = (rs, [line ++ ['\n']]) := by
  simp [processLine, hp, hd, hj]

theorem processLines_append (xs ys : List Str) : ∀ rs,
    processLines rs (xs ++ ys) =
      ((processLines (processLines rs xs).1 ys).1,
       (processLines rs xs).2 ++ (processLines (processLines rs xs).1 ys).2) := by
  induction xs with
  | nil => intro rs; simp [processLines]
  | cons l ls ih =>
    intro rs
    simp [processLines, ih (processLine rs l).1]

theorem splitNl_ne_nil (s : Str) : splitNl s ≠ [] := by
  cases s with
  | nil => simp [splitNl]
  | cons c rest =>
    simp only [splitNl]
    split
    · simp
    · split <;> simp

theorem glue_ne_nil (x : Str) (l : List Str) : glue x l ≠ [] := by
  cases l <;> simp [glue]

theorem glue_nil_of_ne_nil (l : List Str) (h : l ≠ []) : glue [] l = l := by
  cases l with
  | nil => exact absurd rfl h
  | cons g gs => simp [glue]

theorem initGrps_cons_of_ne_nil (x : Str) (l : List Str) (h : l ≠ []) :
    initGrps (x :: l) = x :: initGrps l := by
  cases l with
  | nil => exact absurd rfl h
  | cons y ys => rfl

theorem lastGrp_cons_of_ne_nil (x : Str) (l : List Str) (h : l ≠ []) :
    lastGrp (x :: l) = lastGrp l := by
  cases l with
  | nil => exact absurd rfl h
  | cons y ys => rfl

theorem initGrps_append_of_ne_nil (l1 l2 : List Str) (h : l2 ≠ []) :
    initGrps (l1 ++ l2) = l1 ++ initGrps l2 := by
  induction l1 with
  | nil => rfl
  | cons x xs ih =>
    have hne : xs ++ l2 ≠ [] := by
      intro hc
      rcases List.append_eq_nil.mp hc with ⟨_, h2⟩
      exact h h2
    rw [List.cons_append, initGrps_cons_of_ne_nil x (xs ++ l2) hne, ih,
      List.cons_append]

theorem lastGrp_append_of_ne_nil (l1 l2 : List Str) (h : l2 ≠ []) :
    lastGrp (l1 ++ l2) = lastGrp l2 := by
  induction l1 with
  | nil => rfl
  | cons x xs ih =>
    have hne : xs ++ l2 ≠ [] := by
      intro hc
      rcases List.append_eq_nil.mp hc with ⟨_, h2⟩
      exact h h2
    rw [List.cons_append, lastGrp_cons_of_ne_nil x (xs ++ l2) hne, ih]

theorem splitNl_of_no_nl (s : Str) (h : '\n' ∉ s) : splitNl s = [s] := by
  induction s with
  | nil => rfl
  | cons c r ih =>
    have hc : ¬ c = '\n' := by
      intro hc
      exact h (hc ▸ List.mem_cons_self c r)
    have hr : '\n' ∉ r := fun hm => h (List.mem_cons_of_mem c hm)
    simp [splitNl, hc, ih hr]

theorem splitNl_cons_nl (r : Str) : splitNl ('\n' :: r) = [] :: splitNl r := by
  simp [splitNl]

theorem splitNl_cons_of_ne (c : Char) (r : Str) (hc : ¬ c = '\n') :
    splitNl (c :: r) = glue [c] (splitNl r) := by
  simp only [splitNl, if_neg hc]
  rcases h : splitNl r with _ | ⟨g, gs⟩
  · exact absurd h (splitNl_ne_nil r)
  · simp [glue]

theorem no_nl_lastGrp_splitNl (s : Str) : '\n' ∉ lastGrp (splitNl s) := by
  induction s with
  | nil => simp [splitNl, lastGrp]
  | cons c r ih =>
    by_cases hc : c = '\n'
    · subst hc
      rw [splitNl_cons_nl,
        lastGrp_cons_of_ne_nil [] (splitNl r) (splitNl_ne_nil r)]
      exact ih
    · rw [splitNl_cons_of_ne c r hc]
      rcases h : splitNl r with _ | ⟨g, gs⟩
      · exact absurd h (splitNl_ne_nil r)
      · rw [h] at ih
        cases gs with
        | nil =>
          simp only [glue, lastGrp] at ih ⊢
          intro hm
          rcases List.mem_append.mp hm with h1 | h2
          · exact hc (List.mem_singleton.mp h1).symm
          · exact ih h2
        | cons y ys =>
          simpa [glue, lastGrp] using ih

theorem splitNl_append (a b : Str) :
    splitNl (a ++ b) =
      initGrps (splitNl a) ++ glue (lastGrp (splitNl a)) (splitNl b) := by
  induction a with
  | nil =>
    simp [splitNl, initGrps, lastGrp,
      glue_nil_of_ne_nil (splitNl b) (splitNl_ne_nil b)]
  | cons c a' ih =>
    rw [List.cons_append]
    by_cases hc : c = '\n'
    · subst hc
      rw [splitNl_cons_nl, splitNl_cons_nl,
        initGrps_cons_of_ne_nil [] (splitNl a') (splitNl_ne_nil a'),
        lastGrp_cons_of_ne_nil [] (splitNl a') (splitNl_ne_nil a'),
        ih, List.cons_append]
    · rw [splitNl_cons_of_ne c _ hc, splitNl_cons_of_ne c _ hc, ih]
      rcases hs : splitNl a' with _ | ⟨g', gs'⟩
      · exact absurd hs (splitNl_ne_nil a')
      · cases gs' with
        | nil =>
          rcases hb : splitNl b with _ | ⟨hbh, hbt⟩
          · exact absurd hb (splitNl_ne_nil b)
          · simp [glue, initGrps, lastGrp, List.append_assoc]
        | cons y ys =>
          simp [glue, initGrps, lastGrp, List.append_assoc]

theorem processChunk_append (st : TState) (a b : Str) :
    processChunk st (a ++ b) =
      ((processChunk (processChunk st a).1 b).1,
       (processChunk st a).2 ++ (processChunk (processChunk st a).1 b).2) := by
  have hbuf : splitNl (lastGrp (splitNl (st.buffer ++ a))) =
      [lastGrp (splitNl (st.buffer ++ a))] :=
    splitNl_of_no_nl _ (no_nl_lastGrp_splitNl _)
  have hG := glue_ne_nil (lastGrp (splitNl (st.buffer ++ a))) (splitNl b)
  simp only [processChunk]
  rw [← List.append_assoc, splitNl_append (st.buffer ++ a) b,
    initGrps_append_of_ne_nil _ _ hG, lastGrp_append_of_ne_nil _ _ hG,
    processLines_append, splitNl_append (lastGrp (splitNl (st.buffer ++ a))) b,
    hbuf]
  simp [initGrps, lastGrp]

theorem runChunks_eq_join (chunks : List Str) : ∀ st : TState,
    '\n' ∉ st.buffer → runChunks st chunks = processChunk st chunks.flatten := by
  induction chunks with
  | nil =>
    intro st h
    simp [runChunks, processChunk, splitNl_of_no_nl st.buffer h, initGrps,
      lastGrp, processLines]
  | cons c cs ih =>
    intro st h
    have h1 : '\n' ∉ (processChunk st c).1.buffer := by
      simp only [processChunk]
      exact no_nl_lastGrp_splitNl _
    simp only [runChunks, List.flatten_cons]
    rw [ih (processChunk st c).1 h1, processChunk_append st c cs.flatten]

theorem lineMarkers_balance (rs : Bool) (line : Str) :
    (lineMarkers rs line).1 + rs.toNat =
      (lineMarkers rs line).2 + (processLine rs line).1.toNat := by
  cases hp : dataMarker.isPrefixOf line with
  | false => simp [lineMarkers, processLine, hp]
  | true =>
    cases hd : containsSeq doneTok line with
    | true => simp [lineMarkers, processLine, hp, hd]
    | false =>
      cases hj : jsonParse (line.drop 6) with
      | none => simp [lineMarkers, processLine, hp, hd, hj]
      | some data =>
        cases hg : getDelta data with
        | none => simp [lineMarkers, processLine, hp, hd, hj, hg]
        | some delta =>
          have hh := handleDelta_snd rs delta
          rw [mergeStep_snd] at hh
          cases hre : truthyO (getField delta rcKey) <;>
            cases hco : truthyO (getField delta cKey) <;> cases rs <;>
              simp_all [lineMarkers, processLine, hp, hd, hj, hg]

theorem linesMarkers_balance (ls : List Str) : ∀ rs : Bool,
    (linesMarkers rs ls).1 + rs.toNat =
      (linesMarkers rs ls).2 + (processLines rs ls).1.toNat := by
  induction ls with
  | nil => intro rs; simp [linesMarkers, processLines]
  | cons l ls ih =>
    intro rs
    have h1 := lineMarkers_balance rs l
    have h2 := ih (processLine rs l).1
    simp only [linesMarkers, processLines] at *
    omega

theorem runMarkers_balance (chs : List Str) : ∀ st : TState,
    (runMarkers st chs).1 + st.reasoningStarted.toNat =
      (runMarkers st chs).2 + (runChunks st chs).1.reasoningStarted.toNat := by
  induction chs with
  | nil => intro st; simp [runMarkers, runChunks]
  | cons ch chs ih =>
    intro st
    have h1 := linesMarkers_balance (initGrps (splitNl (st.buffer ++ ch)))
      st.reasoningStarted
    have h2 := ih (processChunk st ch).1
    have hs : (processChunk st ch).1.reasoningStarted =
        (processLines st.reasoningStarted
          (initGrps (splitNl (st.buffer ++ ch)))).1 := rfl
    rw [hs] at h2
    simp only [runMarkers, runChunks] at *
    omega

theorem truthy_str_append_of_ne_nil (a b : Str) (h : a ≠ []) :
    truthy (JValue.str (a ++ b)) = true := by
  cases a with
  | nil => exact absurd rfl h
  | cons x l => simp [truthy]

/-- C1 (amended): over every upstream chunk sequence, the number of
opening markers emitted exceeds the number of closing markers emitted
by one exactly when the run ends in Reasoning state, and they are equal
exactly when it ends in Answering state.  No synthetic closing marker
is emitted as a final event: the end-of-stream handler (`onEnd`,
server.js line 138) writes nothing, so a stream that ends while
`reasoningStarted` is true leaves the markers unbalanced. -/
theorem markers_balance_vs_final_state (chunks : List Str) :
    (runMarkers initState chunks).1 =
      (runMarkers initState chunks).2 +
        (runChunks initState chunks).1.reasoningStarted.toNat := by
  have h := runMarkers_balance chunks initState
  simpa [initState] using h

/-- C1 counterexample: a stream made of a single reasoning event and
then end of stream emits one opening marker and no closing marker, and
the full client-visible output (end handling included) contains an
opening tag but no closing tag, refuting the claimed balance with a
synthetic end-of-stream closer. -/
theorem markers_unbalanced_cx :
    runMarkers initState [c1chunk] = (1, 0) ∧
    containsSeq (("<think>").data) (fullRun [c1chunk]).flatten = true ∧
    containsSeq (("</think>").data) (fullRun [c1chunk]).flatten = false := by
  exact ⟨by decide, by decide, by decide⟩

/-- C2 (amended): chunk-boundary independence holds at the decoded
character level: feeding any character-chunk partition through the
transducer gives exactly the same state and output as feeding the whole
sequence as one chunk, because the trailing incomplete line is retained
in the persistent buffer.  (At the raw byte level the property fails:
see the counterexample, which splits a multi-byte UTF-8 character
across chunks, each decoded independently by `chunk.toString()`.) -/
theorem chunk_boundary_independence (chunks : List Str) :
    runChunks initState chunks = runChunks initState [chunks.flatten] := by
  rw [runChunks_eq_join chunks initState (by simp [initState])]
  simp [runChunks, runChunks_eq_join]

/-- C2 counterexample: the same upstream byte sequence fed as one chunk
and as single-byte chunks produces different merged text, because the
two bytes of U+00E9 are decoded in isolation to replacement
characters. -/
theorem byte_chunking_dependence_cx :
    (c2bytes.map (fun b => [b])).flatten = c2bytes ∧
    (runChunksBytes initState [c2bytes]).2 ≠
      (runChunksBytes initState (c2bytes.map (fun b => [b]))).2 := by
  exact ⟨by decide, by decide⟩

/-- C3: an event whose delta carries a non-empty reasoning fragment and
a non-empty answer fragment, processed while in Answering state
(reasoningStarted false), produces merged text equal to the opening
marker, the reasoning text, the closing marker, then the answer text,
ends in Answering state, and drops the reasoning field. -/
theorem both_fragments_merge (kvs : List (Str × JValue)) (r c : Str)
    (hr : objGet kvs rcKey = some (.str r))
    (hc : objGet kvs cKey = some (.str c))
    (hrne : r ≠ []) (hcne : c ≠ []) :
    (handleDelta false (JValue.obj kvs)).2 = false ∧
    getField (handleDelta false (JValue.obj kvs)).1 cKey =
      some (.str (thinkOpen ++ r ++ thinkClose ++ c)) ∧
    getField (handleDelta false (JValue.obj kvs)).1 rcKey = none := by
  have htr : truthy (JValue.str r) = true := by
    cases r with
    | nil => exact absurd rfl hrne
    | cons a l => simp [truthy]
  have htc : truthy (JValue.str c) = true := by
    cases c with
    | nil => exact absurd rfl hcne
    | cons a l => simp [truthy]
  have hm : mergeStep false (some (.str r)) (some (.str c)) =
      (.str (thinkOpen ++ r ++ thinkClose ++ c), false) := by
    simp [mergeStep, truthyO, htr, htc, jsToStr, List.append_assoc]
  have hopen : thinkOpen ≠ ([] : Str) := by decide
  have hcomb : truthy (JValue.str (thinkOpen ++ r ++ thinkClose ++ c)) = true := by
    rw [List.append_assoc, List.append_assoc]
    exact truthy_str_append_of_ne_nil thinkOpen (r ++ (thinkClose ++ c)) hopen
  have hd : handleDelta false (JValue.obj kvs) =
      (delField (setField (JValue.obj kvs) cKey
        (.str (thinkOpen ++ r ++ thinkClose ++ c))) rcKey, false) := by
    unfold handleDelta
    rw [show getField (JValue.obj kvs) rcKey = some (JValue.str r) from hr,
      show getField (JValue.obj kvs) cKey = some (JValue.str c) from hc, hm]
    dsimp only
    rw [hcomb]
    simp
  rw [hd]
  refine ⟨rfl, ?_, ?_⟩
  · show objGet (objDel (objSet kvs cKey _) rcKey) cKey = _
    rw [objGet_objDel_ne _ _ _ (by decide), objGet_objSet_self]
  · show objGet (objDel (objSet kvs cKey _) rcKey) rcKey = _
    rw [objGet_objDel_self]

/-- C3 witness at a concrete delta. -/
theorem both_fragments_merge_witness :
    objGet c3delta rcKey = some (JValue.str (("why").data)) ∧
    objGet c3delta cKey = some (JValue.str (("ans").data)) ∧
    (handleDelta false (JValue.obj c3delta)).2 = false ∧
    getField (handleDelta false (JValue.obj c3delta)).1 cKey =
      some (JValue.str (thinkOpen ++ ("why").data ++ thinkClose ++ ("ans").data)) ∧
    getField (handleDelta false (JValue.obj c3delta)).1 rcKey = none := by
  have h := both_fragments_merge c3delta (("why").data) (("ans").data)
    rfl rfl (by decide) (by decide)
  exact ⟨rfl, rfl, h.1, h.2.1, h.2.2⟩

/-- C4 (amended): the reasoning field is removed from the outbound
delta exactly when the merged text is truthy (i.e. when the delta
carries a truthy reasoning fragment or a truthy answer fragment); the
trigger is truthiness, not presence, so a present-but-empty
`reasoning_content` with no content is forwarded with the field
intact (see the counterexample). -/
theorem reasoning_field_dropped_when_truthy (rs : Bool) (delta : JValue)
    (h : truthy (mergeStep rs (getField delta rcKey)
      (getField delta cKey)).1 = true) :
    getField (handleDelta rs delta).1 rcKey = none := by
  unfold handleDelta
  simp only [h, if_true]
  cases delta <;> simp [setField, delField, getField, objGet_objDel_self]

/-- C4 witness at a concrete delta with a truthy reasoning fragment. -/
theorem reasoning_field_dropped_when_truthy_witness :
    truthy (mergeStep false
      (getField (JValue.obj [(rcKey, JValue.str (("r").data))]) rcKey)
      (getField (JValue.obj [(rcKey, JValue.str (("r").data))]) cKey)).1 = true ∧
    getField (handleDelta false
      (JValue.obj [(rcKey, JValue.str (("r").data))])).1 rcKey = none :=
  ⟨by decide, reasoning_field_dropped_when_truthy false
    (JValue.obj [(rcKey, JValue.str (("r").data))]) (by decide)⟩

/-- C4 counterexample: an event whose delta has `reasoning_content`
present but equal to the empty string (and no content) is reserialized
with the reasoning field still in the outbound payload: presence alone
does not trigger the drop. -/
theorem reasoning_field_kept_cx :
    containsSeq rcKey c4line = true ∧
    (processLine false c4line).1 = false ∧
    containsSeq rcKey (processLine false c4line).2.flatten = true := by
  exact ⟨by decide, by decide, by decide⟩

/-- C5 (amended): for every ASCII model name on which both bracket
reads miss — no mapping entry and no inherited Object.prototype
member, under the lowercased and the original spelling — resolution
returns a string: a name containing '/' passes through unchanged even
if it contains "deepseek"; otherwise a lowercased name containing
"deepseek" resolves to the default reasoning model, and every other
such name resolves to `meta/llama-3.1-405b-instruct` rather than
passing through.  (Names that do read an inherited member are not
resolutions at all: see the counterexample's "toString" conjunct.) -/
theorem model_resolution_unmatched (model : Str)
    (_hascii : model.all (fun c => decide (c.toNat < 128)) = true)
    (h1 : readMapping (toLowerStr model) = none)
    (h2 : readMapping model = none) :
    resolveModel model =
      .ok (if containsSeq ['/'] model then model
        else if containsSeq (("deepseek").data) (toLowerStr model) then
          ("deepseek-ai/deepseek-v3.2").data
        else ("meta/llama-3.1-405b-instruct").data) := by
  unfold resolveModel
  simp only [h1, h2, orRead, truthyRead]
  cases hc : containsSeq ['/'] model <;>
    cases hd : containsSeq (("deepseek").data) (toLowerStr model) <;>
      simp [hc, hd]

/-- C5 witness at a concrete unmatched ASCII name. -/
theorem model_resolution_unmatched_witness :
    (("foobarx").data).all (fun c => decide (c.toNat < 128)) = true ∧
    readMapping (toLowerStr (("foobarx").data)) = none ∧
    readMapping (("foobarx").data) = none ∧
    resolveModel (("foobarx").data) =
      .ok (if containsSeq ['/'] (("foobarx").data) then (("foobarx").data)
        else if containsSeq (("deepseek").data)
            (toLowerStr (("foobarx").data)) then
          ("deepseek-ai/deepseek-v3.2").data
        else ("meta/llama-3.1-405b-instruct").data) :=
  ⟨by decide, rfl, rfl,
   model_resolution_unmatched (("foobarx").data) (by decide) rfl rfl⟩

/-- C5 counterexample: "foobar" has no mapping entry and no slash, yet
it does not pass through unchanged (it resolves to the llama default);
"my/deepseek" contains "deepseek" in lowercase yet passes through
unchanged instead of resolving to the default reasoning model; and
"toString", unmatched by the table and without a heuristic match, is
not passed through either: its bracket read under the original
spelling hits the inherited `Object.prototype.toString` function, so
`nimModel.includes('/')` throws a TypeError instead of resolving. -/
theorem model_resolution_cx :
    resolveModel (("foobar").data) =
      .ok (("meta/llama-3.1-405b-instruct").data) ∧
    ("meta/llama-3.1-405b-instruct").data ≠ ("foobar").data ∧
    containsSeq (("deepseek").data) (toLowerStr (("my/deepseek").data)) = true ∧
    resolveModel (("my/deepseek").data) = .ok (("my/deepseek").data) ∧
    ("my/deepseek").data ≠ ("deepseek-ai/deepseek-v3.2").data ∧
    resolveModel (("toString").data) = .typeError := by
  exact ⟨by decide, by decide, by decide, by decide, by decide, by decide⟩

/-- C6 (amended): the catch block always propagates the upstream HTTP
status, and `error.message` carries the upstream-provided text when the
request was non-streaming (`responseType: 'json'`); when the request
was streaming the error body is an undrained stream with no `error`
property, so the envelope falls back to the transport error text and
the upstream message is lost. -/
theorem catchEnvelope_fst (response : Option (Nat × UpData)) (ax : Str) :
    (catchEnvelope response ax).1 =
      match response with
      | some p => jsOrNat p.1 500
      | none => 500 := by
  rcases response with _ | ⟨s, d⟩ <;> rfl

theorem envMessage_catchEnvelope (response : Option (Nat × UpData)) (ax : Str) :
    envMessage (catchEnvelope response ax).2 =
      some (match response with
        | some p =>
          match upDataErrMsg p.2 with
          | some m => if truthy m then m else JValue.str ax
          | none => JValue.str ax
        | none => JValue.str ax) := by
  rcases response with _ | ⟨s, d⟩ <;> rfl

theorem error_envelope_404 (status : Nat) (v e m : JValue) (raw ax : Str)
    (hs : status ≠ 0)
    (he : getField v errKey = some e)
    (hm : getField e msgKey = some m)
    (ht : truthy m = true) :
    (catchEnvelope (some (status, UpData.jsonBody v)) ax).1 = status ∧
    envMessage (catchEnvelope (some (status, UpData.jsonBody v)) ax).2 =
      some m ∧
    (catchEnvelope (some (status, UpData.streamBody raw)) ax).1 = status ∧
    envMessage (catchEnvelope (some (status, UpData.streamBody raw)) ax).2 =
      some (.str ax) := by
  refine ⟨?_, ?_, ?_, ?_⟩
  · rw [catchEnvelope_fst]
    simp [jsOrNat, hs]
  · rw [envMessage_catchEnvelope]
    simp [upDataErrMsg, he, hm, ht]
  · rw [catchEnvelope_fst]
    simp [jsOrNat, hs]
  · rw [envMessage_catchEnvelope]
    simp [upDataErrMsg]

/-- C6 witness at a concrete 404 with a JSON body and a stream body. -/
theorem error_envelope_404_witness :
    (404 : Nat) ≠ 0 ∧
    getField c6body errKey =
      some (JValue.obj [(msgKey, JValue.str (("Model abc missing").data))]) ∧
    ((catchEnvelope (some (404, UpData.jsonBody c6body)) (("boom").data)).1
        = 404 ∧
      envMessage (catchEnvelope (some (404, UpData.jsonBody c6body))
        (("boom").data)).2 = some (JValue.str (("Model abc missing").data)) ∧
      (catchEnvelope (some (404, UpData.streamBody (("zzz").data)))
        (("boom").data)).1 = 404 ∧
      envMessage (catchEnvelope (some (404, UpData.streamBody (("zzz").data)))
        (("boom").data)).2 = some (JValue.str (("boom").data))) :=
  ⟨by decide, rfl,
   error_envelope_404 404 c6body
     (JValue.obj [(msgKey, JValue.str (("Model abc missing").data))])
     (JValue.str (("Model abc missing").data)) (("zzz").data) (("boom").data)
     (by decide) rfl rfl (by decide)⟩

/-- C6 counterexample: for a streaming request, an upstream 404 whose
JSON error body contains "Model xyz not found" is normalized to status
404 but with `error.message` equal to the transport error text, which
does not contain the upstream-provided text — the error stream is
never drained. -/
theorem error_404_stream_cx :
    (catchEnvelope (some (404, UpData.streamBody c6raw)) c6ax).1 = 404 ∧
    envMessage (catchEnvelope (some (404, UpData.streamBody c6raw)) c6ax).2 =
      some (JValue.str c6ax) ∧
    containsSeq (("Model xyz not found").data) c6raw = true ∧
    containsSeq (("Model xyz not found").data) c6ax = false := by
  exact ⟨rfl, rfl, by decide, by decide⟩

/-- C7 (amended): the non-streaming reshape of a first choice with
content "42" and reasoning "because" yields content
`<think>` + newline + because + newline + `</think>` + two newlines +
42, and the rebuilt message object has no reasoning field.  The opening
marker matches the streaming path, but the closing marker is preceded
by an extra newline the streaming path does not emit (see the
counterexample). -/
theorem nonstream_reshape (choice msg : JValue)
    (hm : getField choice msgKey = some msg)
    (hc : getField msg cKey = some (JValue.str (("42").data)))
    (hr : getField msg rcKey = some (JValue.str (("because").data))) :
    nonStreamContent choice =
      JValue.str (("<think>\nbecause\n</think>\n\n42").data) ∧
    getField (reshapeMessage choice) rcKey = none := by
  have ht1 : truthy (JValue.str (("42").data)) = true := by decide
  have ht2 : truthy (JValue.str (("because").data)) = true := by decide
  have h1 : nonStreamContent choice =
      JValue.str (thinkOpen ++ ("because").data ++ ("\n</think>\n\n").data
        ++ ("42").data) := by
    unfold nonStreamContent
    rw [hm]
    simp [hc, hr, ht1, ht2, jsToStr]
  constructor
  · rw [h1]
    exact congrArg JValue.str (by decide)
  · show objGet _ rcKey = none
    simp [objGet, rcKey, cKey]

/-- C7 witness at a concrete upstream choice. -/
theorem nonstream_reshape_witness :
    getField c7choice msgKey = some c7msg ∧
    getField c7msg cKey = some (JValue.str (("42").data)) ∧
    getField c7msg rcKey = some (JValue.str (("because").data)) ∧
    nonStreamContent c7choice =
      JValue.str (("<think>\nbecause\n</think>\n\n42").data) ∧
    getField (reshapeMessage c7choice) rcKey = none :=
  ⟨rfl, rfl, rfl,
   (nonstream_reshape c7choice c7msg rfl rfl rfl).1,
   (nonstream_reshape c7choice c7msg rfl rfl rfl).2⟩

/-- C7 counterexample: the produced content is not the opening marker +
"because" + the closing marker + "42" with the markers the streaming
path uses (`<think>` + newline and `</think>` + two newlines): the
non-streaming path inserts an extra newline before the closing
marker. -/
theorem nonstream_marker_mismatch_cx :
    nonStreamContent c7choice =
      JValue.str (("<think>\nbecause\n</think>\n\n42").data) ∧
    ("<think>\nbecause\n</think>\n\n42").data ≠
      thinkOpen ++ ("because").data ++ thinkClose ++ ("42").data := by
  constructor
  · exact congrArg JValue.str (by decide)
  · decide

/-- C8 (amended): a complete line that does not carry the event-payload
marker is silently dropped: the transducer writes nothing for it and
leaves the state unchanged, rather than forwarding it. -/
theorem non_prefixed_line_dropped (rs : Bool) (line : Str)
    (h : dataMarker.isPrefixOf line = false) :
    processLine rs line = (rs, []) :=
  processLine_not_marked rs line h

/-- C8 witness at a concrete control line. -/
theorem non_prefixed_line_dropped_witness :
    dataMarker.isPrefixOf c8line = false ∧
    processLine false c8line = (false, []) :=
  ⟨by decide, non_prefixed_line_dropped false c8line (by decide)⟩

/-- C8 counterexample: the non-blank unmarked line ": keep-alive"
produces no output at all, refuting the claim that such lines are
forwarded unchanged rather than dropped. -/
theorem non_prefixed_line_dropped_cx :
    c8line ≠ [] ∧
    dataMarker.isPrefixOf c8line = false ∧
    (processLine false c8line).2 = [] := by
  exact ⟨by decide, by decide, by decide⟩

/-- C9: a marked line whose JSON payload fails to parse is forwarded
raw (with a newline) with the state unchanged, so the well-formed
events before and after it are processed exactly as if it were
forwarded in isolation, and the stream is not aborted. -/
theorem malformed_line_isolated (rs : Bool) (pre post : List Str) (bad : Str)
    (hp : dataMarker.isPrefixOf bad = true)
    (hd : containsSeq doneTok bad = false)
    (hj : jsonParse (bad.drop 6) = none) :
    processLines rs (pre ++ bad :: post) =
      ((processLines (processLines rs pre).1 post).1,
       (processLines rs pre).2 ++
         (bad ++ ['\n']) :: (processLines (processLines rs pre).1 post).2) := by
  rw [processLines_append pre (bad :: post) rs]
  have hb := processLine_bad_json (processLines rs pre).1 bad hp hd hj
  simp [processLines, hb]

/-- C9 witness: a malformed line between two well-formed events. -/
theorem malformed_line_isolated_witness :
    dataMarker.isPrefixOf c9bad = true ∧
    containsSeq doneTok c9bad = false ∧
    jsonParse (c9bad.drop 6) = none ∧
    processLines false ([c9good1] ++ c9bad :: [c9good2]) =
      ((processLines (processLines false [c9good1]).1 [c9good2]).1,
       (processLines false [c9good1]).2 ++
         (c9bad ++ ['\n']) ::
           (processLines (processLines false [c9good1]).1 [c9good2]).2) :=
  ⟨by decide, by decide, rfl,
   malformed_line_isolated false [c9good1] [c9good2] c9bad
     (by decide) (by decide) rfl⟩

/-- C10: any marked line that contains "[DONE]" anywhere is forwarded
raw with the state unchanged — the sentinel test is substring
containment, not line equality — so a well-formed JSON event whose
content happens to contain "[DONE]" bypasses the merge logic
entirely. -/
theorem done_line_forwarded_raw (rs : Bool) (line : Str)
    (hp : dataMarker.isPrefixOf line = true)
    (hd : containsSeq doneTok line = true) :
    processLine rs line = (rs, [line ++ ['\n']]) :=
  processLine_done rs line hp hd

/-- C10 witness: a well-formed JSON event whose content text contains
the sentinel token is forwarded raw. -/
theorem done_line_forwarded_raw_witness :
    dataMarker.isPrefixOf c10line = true ∧
    containsSeq doneTok c10line = true ∧
    (jsonParse (c10line.drop 6)).isSome = true ∧
    processLine false c10line = (false, [c10line ++ ['\n']]) :=
  ⟨by decide, by decide, rfl,
   done_line_forwarded_raw false c10line (by decide) (by decide)⟩
